import Mathlib

/-!
Shallow embedding of the `reachy-mini-motor-controller` repository
(files `src/controller.rs` and `src/control_loop.rs`) and proofs about it.

Modelling conventions:
* Rust `f64` position/timestamp values are modelled by `ℚ` (the claims only
  move these values around and compare them against constant bounds; no
  float-specific arithmetic is involved).
* Fixed-size Rust arrays (`[f64; 9]`, `[f64; 6]`, `[f64; 2]`, `[i16; 6]`,
  `[bool; n]`, `[u8; n]`) are modelled by Lean lists; every construction
  site in the source produces the statically correct length.
* The bus transport (`rustypot` sync read/write primitives over the serial
  port) is modelled by an oracle `Oracle : WriteOp → Except String Unit`
  deciding the outcome of each attempted write, plus an explicit log of the
  writes that were actually attempted.  Reads are modelled as the data they
  return (`Except String (List ℚ)` for `read_all_positions`).
* Rust `Result<T, E>` is `Except E T`; `Box<dyn Error>` error values are
  tagged by their construction site (`CtrlError.validationError` for the
  error built by `validate_positions`, `CtrlError.transportError` for an
  error propagated from the transport), since the claims distinguish the
  two provenances.
-/

deriving instance DecidableEq for Except

namespace ReachyMini

/-- Boolean error-test for `Except` (Rust `Result::is_err`). -/
def isErr {ε α : Type} : Except ε α → Bool
  | .error _ => true
  | .ok _ => false

/-- Boolean success-test for `Except` (Rust `Result::is_ok`). -/
def isOkE {ε α : Type} : Except ε α → Bool
  | .error _ => false
  | .ok _ => true

/-! ## `src/controller.rs` -/

/-- `const BODY_ROTATION_ID: u8 = 11;` -/
def BODY_ROTATION_ID : ℕ := 11

/-- `const ANTENNA_LEFT_ID: u8 = 21;` -/
def ANTENNA_LEFT_ID : ℕ := 21

/-- `const ANTENNA_RIGHT_ID: u8 = 22;` -/
def ANTENNA_RIGHT_ID : ℕ := 22

/-- `const STEWART_PLATFORM_IDS: [u8; 6] = [1, 2, 3, 4, 5, 6];` -/
def STEWART_PLATFORM_IDS : List ℕ := [1, 2, 3, 4, 5, 6]

/-- `const POSITION_MIN: f64 = -180.0;` -/
def POSITION_MIN : ℚ := -180

/-- `const POSITION_MAX: f64 = 180.0;` -/
def POSITION_MAX : ℚ := 180

/-- One grouped write on the bus, as issued by `ReachyMiniMotorController`:
the protocol family (v1 = sts3215, v2 = xl330), the register being written,
the target bus ids and the values. Mirrors the distinct
`sts3215::sync_write_*` / `xl330::sync_write_*` call sites of
`src/controller.rs`. -/
inductive WriteOp where
  | goalPositionV1 (ids : List ℕ) (values : List ℚ)
  | goalPositionV2 (ids : List ℕ) (values : List ℚ)
  | torqueEnableV1 (ids : List ℕ) (values : List Bool)
  | torqueEnableV2 (ids : List ℕ) (values : List Bool)
  | goalCurrentV2 (ids : List ℕ) (values : List ℤ)
  | operatingModeV2 (ids : List ℕ) (values : List ℕ)
  | modeV1 (ids : List ℕ) (values : List ℕ)
deriving DecidableEq

/-- Errors returned by controller methods (`Box<dyn Error>` in the source),
tagged by provenance: built by `validate_positions`, or propagated from a
failed transport write. -/
inductive CtrlError where
  | validationError (index : ℕ) (value : ℚ)
  | transportError (msg : String)
deriving DecidableEq

/-- Whether a `CtrlError` is the `validate_positions` error. -/
def CtrlError.isValidation : CtrlError → Bool
  | .validationError _ _ => true
  | .transportError _ => false

/-- Transport model: decides the outcome of each attempted bus write. -/
def Oracle : Type := WriteOp → Except String Unit

/-- A transport on which every write succeeds. -/
def oracleOk : Oracle := fun _ => .ok ()

/-- Helper for the `?`-chained `sync_write` calls inside a controller
method: attempt the listed writes in order, stop at the first transport
failure, and log exactly the writes that were attempted. -/
def runWrites (oracle : Oracle) : List WriteOp → Except CtrlError Unit × List WriteOp
  | [] => (.ok (), [])
  | op :: rest =>
    match oracle op with
    | .error e => (.error (.transportError e), [op])
    | .ok _ =>
      let r := runWrites oracle rest
      (r.1, op :: r.2)

/-- `validate_positions` inner loop: walk the slice with its index and
return the error for the first element with
`pos < POSITION_MIN || pos > POSITION_MAX`. -/
def validateFrom (i : ℕ) : List ℚ → Except CtrlError Unit
  | [] => .ok ()
  | pos :: rest =>
    if pos < POSITION_MIN ∨ pos > POSITION_MAX then
      .error (.validationError i pos)
    else
      validateFrom (i + 1) rest

/-- `ReachyMiniMotorController::validate_positions`. -/
def validate_positions (positions : List ℚ) : Except CtrlError Unit :=
  validateFrom 0 positions

/-- `ReachyMiniMotorController::set_all_goal_positions`: validate the nine
values, then write `positions[0..3]` to the v1 motors and `positions[3..9]`
to the v2 motors. Returns the method result together with the log of
attempted bus writes. -/
def set_all_goal_positions (oracle : Oracle) (positions : List ℚ) :
    Except CtrlError Unit × List WriteOp :=
  match validate_positions positions with
  | .error e => (.error e, [])
  | .ok _ =>
    runWrites oracle
      [ .goalPositionV1 [BODY_ROTATION_ID, ANTENNA_LEFT_ID, ANTENNA_RIGHT_ID]
          (positions.take 3),
        .goalPositionV2 STEWART_PLATFORM_IDS (positions.drop 3) ]

/-- `ReachyMiniMotorController::set_antennas_positions`. -/
def set_antennas_positions (oracle : Oracle) (positions : List ℚ) :
    Except CtrlError Unit × List WriteOp :=
  match validate_positions positions with
  | .error e => (.error e, [])
  | .ok _ =>
    runWrites oracle
      [ .goalPositionV1 [ANTENNA_LEFT_ID, ANTENNA_RIGHT_ID] positions ]

/-- `ReachyMiniMotorController::set_stewart_platform_position`. -/
def set_stewart_platform_position (oracle : Oracle) (position : List ℚ) :
    Except CtrlError Unit × List WriteOp :=
  match validate_positions position with
  | .error e => (.error e, [])
  | .ok _ =>
    runWrites oracle [ .goalPositionV2 STEWART_PLATFORM_IDS position ]

/-- `ReachyMiniMotorController::set_body_rotation`. -/
def set_body_rotation (oracle : Oracle) (position : ℚ) :
    Except CtrlError Unit × List WriteOp :=
  match validate_positions [position] with
  | .error e => (.error e, [])
  | .ok _ =>
    runWrites oracle [ .goalPositionV1 [BODY_ROTATION_ID] [position] ]

/-- `ReachyMiniMotorController::set_torque` (shared body of
`enable_torque` / `disable_torque`). -/
def set_torque (oracle : Oracle) (enable : Bool) :
    Except CtrlError Unit × List WriteOp :=
  runWrites oracle
    [ .torqueEnableV1 [BODY_ROTATION_ID, ANTENNA_LEFT_ID, ANTENNA_RIGHT_ID]
        (List.replicate 3 enable),
      .torqueEnableV2 STEWART_PLATFORM_IDS (List.replicate 6 enable) ]

/-- `ReachyMiniMotorController::enable_torque`. -/
def enable_torque (oracle : Oracle) : Except CtrlError Unit × List WriteOp :=
  set_torque oracle true

/-- `ReachyMiniMotorController::disable_torque`. -/
def disable_torque (oracle : Oracle) : Except CtrlError Unit × List WriteOp :=
  set_torque oracle false

/-- `ReachyMiniMotorController::set_stewart_platform_goal_current`
(no validation in the source). -/
def set_stewart_platform_goal_current (oracle : Oracle) (current : List ℤ) :
    Except CtrlError Unit × List WriteOp :=
  runWrites oracle [ .goalCurrentV2 STEWART_PLATFORM_IDS current ]

/-- `ReachyMiniMotorController::set_stewart_platform_operating_mode`. -/
def set_stewart_platform_operating_mode (oracle : Oracle) (mode : ℕ) :
    Except CtrlError Unit × List WriteOp :=
  runWrites oracle [ .operatingModeV2 [1, 2, 3, 4, 5, 6] (List.replicate 6 mode) ]

/-- `ReachyMiniMotorController::set_antennas_operating_mode`. -/
def set_antennas_operating_mode (oracle : Oracle) (mode : ℕ) :
    Except CtrlError Unit × List WriteOp :=
  runWrites oracle [ .modeV1 [21, 22] (List.replicate 2 mode) ]

/-- `ReachyMiniMotorController::set_body_rotation_operating_mode`. -/
def set_body_rotation_operating_mode (oracle : Oracle) (mode : ℕ) :
    Except CtrlError Unit × List WriteOp :=
  runWrites oracle [ .modeV1 [11] [mode] ]

/-- `ReachyMiniMotorController::enable_body_rotation`. -/
def enable_body_rotation (oracle : Oracle) (enable : Bool) :
    Except CtrlError Unit × List WriteOp :=
  runWrites oracle [ .torqueEnableV1 [11] [enable] ]

/-- `ReachyMiniMotorController::enable_antennas`. -/
def enable_antennas (oracle : Oracle) (enable : Bool) :
    Except CtrlError Unit × List WriteOp :=
  runWrites oracle [ .torqueEnableV1 [21, 22] (List.replicate 2 enable) ]

/-- `ReachyMiniMotorController::enable_stewart_platform`. -/
def enable_stewart_platform (oracle : Oracle) (enable : Bool) :
    Except CtrlError Unit × List WriteOp :=
  runWrites oracle [ .torqueEnableV2 [1, 2, 3, 4, 5, 6] (List.replicate 6 enable) ]

/-! ## `src/control_loop.rs`: data model -/

/-- `struct FullBodyPosition` (timestamp = seconds since the UNIX epoch). -/
structure FullBodyPosition where
  body_yaw : ℚ
  stewart : List ℚ
  antennas : List ℚ
  timestamp : ℚ
deriving DecidableEq

/-- `enum MotorCommand`. -/
inductive MotorCommand where
  | setAllGoalPositions (positions : FullBodyPosition)
  | setStewartPlatformPosition (position : List ℚ)
  | setBodyRotation (position : ℚ)
  | setAntennasPositions (positions : List ℚ)
  | enableTorque
  | disableTorque
  | setStewartPlatformGoalCurrent (current : List ℤ)
  | setStewartPlatformOperatingMode (mode : ℕ)
  | setAntennasOperatingMode (mode : ℕ)
  | setBodyRotationOperatingMode (mode : ℕ)
  | enableStewartPlatform (enable : Bool)
  | enableBodyRotation (enable : Bool)
  | enableAntennas (enable : Bool)
deriving DecidableEq

/-- The nine-value vector `handle_commands` builds for
`SetAllGoalPositions`: `[body_yaw, antennas[0], antennas[1],
stewart[0], .., stewart[5]]`. -/
def sagpVector (positions : FullBodyPosition) : List ℚ :=
  positions.body_yaw :: (positions.antennas ++ positions.stewart)

/-- `handle_commands`: exhaustive dispatch of one `MotorCommand` to the
corresponding controller method. Returns the method result and the log of
attempted bus writes. -/
def handle_commands (oracle : Oracle) :
    MotorCommand → Except CtrlError Unit × List WriteOp
  | .setAllGoalPositions positions => set_all_goal_positions oracle (sagpVector positions)
  | .setStewartPlatformPosition position => set_stewart_platform_position oracle position
  | .setBodyRotation position => set_body_rotation oracle position
  | .setAntennasPositions positions => set_antennas_positions oracle positions
  | .enableTorque => enable_torque oracle
  | .disableTorque => disable_torque oracle
  | .setStewartPlatformGoalCurrent current => set_stewart_platform_goal_current oracle current
  | .setStewartPlatformOperatingMode mode => set_stewart_platform_operating_mode oracle mode
  | .setAntennasOperatingMode mode => set_antennas_operating_mode oracle mode
  | .setBodyRotationOperatingMode mode => set_body_rotation_operating_mode oracle mode
  | .enableStewartPlatform enable => enable_stewart_platform oracle enable
  | .enableBodyRotation enable => enable_body_rotation oracle enable
  | .enableAntennas enable => enable_antennas oracle enable

/-- `read_pos`: translate the result of
`ReachyMiniMotorController::read_all_positions` (a 9-value vector in the
order `[body_rotation, antenna_left, antenna_right, stewart_1..6]`) into a
`FullBodyPosition` stamped with the current wall-clock time `now`; a reply
of any other length is an error. -/
def read_pos (readResult : Except String (List ℚ)) (now : ℚ) :
    Except String FullBodyPosition :=
  match readResult with
  | .ok [p0, p1, p2, p3, p4, p5, p6, p7, p8] =>
    .ok { body_yaw := p0,
          stewart := [p3, p4, p5, p6, p7, p8],
          antennas := [p1, p2],
          timestamp := now }
  | .ok positions =>
    .error ("Unexpected positions length: " ++ toString positions.length)
  | .error e => .error e

/-- `read_pos_with_retries`, unrolled over the attempt index: `reads i` is
the outcome of the `i`-th call to `read_pos`, `fuel` the number of attempts
still allowed (`retries - i`). The loop returns the first success and gives
up after `retries` failed attempts. -/
def readPosRetryAux (reads : ℕ → Except String FullBodyPosition)
    (retries : ℕ) (i : ℕ) : ℕ → Except String FullBodyPosition
  | 0 => .error ("Failed to read positions after " ++ toString retries ++ " retries")
  | fuel + 1 =>
    match reads i with
    | .ok pos => .ok pos
    | .error _ => readPosRetryAux reads retries (i + 1) fuel

/-- `read_pos_with_retries`: `for i in 0..retries { ... }` then the final
error. -/
def read_pos_with_retries (reads : ℕ → Except String FullBodyPosition)
    (retries : ℕ) : Except String FullBodyPosition :=
  readPosRetryAux reads retries 0 retries

/-- The caller-visible handle produced by `ReachyMiniControlLoop::new`:
`cache` is the content of the mutex-guarded `last_position` slot at the
moment the constructor returns. -/
structure Handle where
  cache : Except String FullBodyPosition
deriving DecidableEq

/-- `ReachyMiniControlLoop::new`, restricted to what it does to the
Position Cache: perform the blocking initial read with retries; on failure
propagate the error (`?`) and produce no handle, on success seed the cache
with `Ok(first successful snapshot)`. -/
def ReachyMiniControlLoop.new (reads : ℕ → Except String FullBodyPosition)
    (read_allowed_retries : ℕ) : Except String Handle :=
  match read_pos_with_retries reads read_allowed_retries with
  | .error e => .error e
  | .ok last_position => .ok { cache := .ok last_position }

/-- `ReachyMiniControlLoop::get_last_position` (a copy of the cache slot). -/
def get_last_position (h : Handle) : Except String FullBodyPosition :=
  h.cache

/-! ## `src/control_loop.rs`: the worker's polling state machine
(the `interval.tick()` branch of `run`, lines 219-253) -/

/-- Worker state relevant to the failure state machine: the consecutive
read-failure counter `error_count` and the shared Position Cache
`last_position`. -/
structure WorkerState where
  error_count : ℕ
  cache : Except String FullBodyPosition
deriving DecidableEq

/-- One timer tick as seen by the worker: the outcome of `read_pos` and
the wall-clock time `now` used to stamp a successful snapshot. -/
structure TickInput where
  read : Except String FullBodyPosition
  now : ℚ
deriving DecidableEq

/-- One `interval.tick()` iteration of `run`: on `Ok(positions)` reset
`error_count` to 0 and overwrite the cache with the re-stamped snapshot;
on `Err(e)` increment `error_count`, and if the incremented count is no
longer `< read_allowed_retries` overwrite the cache with `Err(e)` (below
the threshold the cache is left untouched). -/
def tickStep (read_allowed_retries : ℕ) (s : WorkerState) (i : TickInput) :
    WorkerState :=
  match i.read with
  | .ok positions =>
    { error_count := 0,
      cache := .ok { body_yaw := positions.body_yaw,
                     stewart := positions.stewart,
                     antennas := positions.antennas,
                     timestamp := i.now } }
  | .error e =>
    let ec := s.error_count + 1
    if ec < read_allowed_retries then
      { s with error_count := ec }
    else
      { error_count := ec, cache := .error e }

/-- Iterate `tickStep` over a sequence of tick inputs. -/
def runTicks (read_allowed_retries : ℕ) (s : WorkerState)
    (inputs : List TickInput) : WorkerState :=
  inputs.foldl (tickStep read_allowed_retries) s

/-! ## `src/control_loop.rs`: the full worker event loop
(`run`, lines 196-272, together with `push_command` and the
`mpsc::channel` FIFO) -/

/-- One event hitting the worker's `tokio::select!` loop:
a producer's `push_command` enqueueing into the bounded FIFO channel,
the worker's `rx.recv()` branch firing, or the `interval.tick()` branch
firing. -/
inductive Event where
  | push (cmd : MotorCommand)
  | recv
  | tick (i : TickInput)
deriving DecidableEq

/-- State of the worker loop plus the channel: the pending FIFO queue
(head = oldest), the sequence of commands already handed to
`handle_commands` (in order), whether the worker thread has died by
panicking (`handle_commands(..).unwrap()` on an `Err`), and the polling
state machine. -/
structure LoopState where
  queue : List MotorCommand
  applied : List MotorCommand
  dead : Bool
  worker : WorkerState
deriving DecidableEq

/-- One step of the worker event loop. A dead (panicked) worker processes
nothing further: its `rx` is dropped and its loop is gone. `push` appends
to the FIFO channel; `recv` dequeues the oldest pending command and applies
it synchronously via `handle_commands`, and the `.unwrap()` in `run` kills
the worker if that application returned `Err`; `tick` runs one polling
iteration. -/
def loopStep (oracle : Oracle) (read_allowed_retries : ℕ)
    (s : LoopState) : Event → LoopState
  | .push cmd =>
    if s.dead then s else { s with queue := s.queue ++ [cmd] }
  | .recv =>
    if s.dead then s else
      match s.queue with
      | [] => s
      | cmd :: rest =>
        { s with queue := rest,
                 applied := s.applied ++ [cmd],
                 dead := isErr (handle_commands oracle cmd).1 }
  | .tick i =>
    if s.dead then s
    else { s with worker := tickStep read_allowed_retries s.worker i }

/-- Iterate `loopStep` over a sequence of events. -/
def runLoop (oracle : Oracle) (read_allowed_retries : ℕ)
    (s : LoopState) (events : List Event) : LoopState :=
  events.foldl (loopStep oracle read_allowed_retries) s

/-! ## `src/control_loop.rs`: the stats aggregator
(`ControlLoopStats`, the stats pushes at lines 213-216 and 221-224, the
flush at lines 254-268, and `get_stats`) -/

/-- `struct ControlLoopStats`: the externally visible, mutex-guarded
stats window returned by `get_stats`. -/
structure ControlLoopStats where
  period : List ℚ
  read_dt : List ℚ
  write_dt : List ℚ
deriving DecidableEq

/-- Stats-related state of the worker: the shared visible window plus the
worker-local `read_dt` / `write_dt` sample buffers. -/
structure StatsState where
  window : ControlLoopStats
  local_read : List ℚ
  local_write : List ℚ
deriving DecidableEq

/-- Stats effect of the command branch (lines 211-216): push the elapsed
write duration onto the local `write_dt` buffer. -/
def statsWrite (s : StatsState) (writeSample : ℚ) : StatsState :=
  { s with local_write := s.local_write ++ [writeSample] }

/-- Stats effect of one timer tick: the inter-tick spacing is pushed
directly onto the shared window's `period` (lines 221-224), the read
duration onto the local `read_dt` buffer (lines 254-257); then, if the
wall clock says the flush period has elapsed (`stats_t0.elapsed() >
period`, passed in as `flushDue`), the local buffers are appended
(`extend`) onto the shared window and cleared (lines 259-268). -/
def statsTick (s : StatsState) (periodSample readSample : ℚ)
    (flushDue : Bool) : StatsState :=
  let w := { s.window with period := s.window.period ++ [periodSample] }
  let lr := s.local_read ++ [readSample]
  if flushDue then
    { window := { w with read_dt := w.read_dt ++ lr,
                         write_dt := w.write_dt ++ s.local_write },
      local_read := [],
      local_write := [] }
  else
    { window := w, local_read := lr, local_write := s.local_write }

/-- `ReachyMiniControlLoop::get_stats` with stats enabled: a copy of the
shared window. -/
def get_stats (s : StatsState) : ControlLoopStats :=
  s.window

/-! ## Concrete values used to instantiate the theorems -/

/-- A concrete rest snapshot. -/
def fbp0 : FullBodyPosition :=
  { body_yaw := 0, stewart := [0, 0, 0, 0, 0, 0], antennas := [0, 0],
    timestamp := 0 }

/-- A concrete read sequence: the first attempt fails, every later attempt
succeeds. -/
def readsW : ℕ → Except String FullBodyPosition
  | 0 => .error "bus timeout"
  | _ + 1 => .ok fbp0

/-- A transport on which every write fails. -/
def oracleFail : Oracle := fun _ => .error "io error"

/-- A fresh loop state: empty queue, nothing applied, worker alive and
healthy. -/
def s0loop : LoopState :=
  { queue := [], applied := [], dead := false,
    worker := { error_count := 0, cache := .ok fbp0 } }

/-- Loop state reached from `s0loop` after an in-range
`SetBodyRotation` command is pushed and dequeued while every bus write
fails: `handle_commands` returns `Err`, and `run`'s `.unwrap()` kills the
worker. -/
def afterBadWrite : LoopState :=
  runLoop oracleFail 3 s0loop [.push (.setBodyRotation 10), .recv]

/-- A fresh stats state: empty window, empty local buffers. -/
def statsS0 : StatsState :=
  { window := { period := [], read_dt := [], write_dt := [] },
    local_read := [], local_write := [] }

/-! ## Basic lemmas about the polling state machine -/

theorem runTicks_nil (r : ℕ) (s : WorkerState) : runTicks r s [] = s := rfl

theorem runTicks_cons (r : ℕ) (s : WorkerState) (i : TickInput)
    (rest : List TickInput) :
    runTicks r s (i :: rest) = runTicks r (tickStep r s i) rest := rfl

theorem tickStep_err_lt (r : ℕ) (s : WorkerState) (e : String) (now : ℚ)
    (h : s.error_count + 1 < r) :
    tickStep r s ⟨.error e, now⟩ = { s with error_count := s.error_count + 1 } := by
  simp [tickStep, h]

theorem tickStep_err_ge (r : ℕ) (s : WorkerState) (e : String) (now : ℚ)
    (h : ¬ s.error_count + 1 < r) :
    tickStep r s ⟨.error e, now⟩ =
      { error_count := s.error_count + 1, cache := .error e } := by
  simp [tickStep, h]

theorem tickStep_err_cache_isErr (r : ℕ) (s : WorkerState) (i : TickInput)
    (hi : isErr i.read = true) (hs : isErr s.cache = true) :
    isErr (tickStep r s i).cache = true := by
  obtain ⟨read, now⟩ := i
  cases read with
  | ok p => simp [isErr] at hi
  | error e =>
    by_cases h : s.error_count + 1 < r
    · rw [tickStep_err_lt r s e now h]
      exact hs
    · rw [tickStep_err_ge r s e now h]
      rfl

theorem runTicks_err_cache_isErr (r : ℕ) (inputs : List TickInput)
    (hFail : ∀ i ∈ inputs, isErr i.read = true) :
    ∀ s : WorkerState, isErr s.cache = true →
      isErr (runTicks r s inputs).cache = true := by
  induction inputs with
  | nil => intro s hs; exact hs
  | cons i rest ih =>
    intro s hs
    rw [runTicks_cons]
    exact ih (fun j hj => hFail j (List.mem_cons_of_mem _ hj)) _
      (tickStep_err_cache_isErr r s i (hFail i (List.mem_cons_self _ _)) hs)

theorem runTicks_fail_below (r : ℕ) :
    ∀ (inputs : List TickInput) (s : WorkerState),
      (∀ i ∈ inputs, isErr i.read = true) →
      s.error_count + inputs.length < r →
      runTicks r s inputs = { s with error_count := s.error_count + inputs.length } := by
  intro inputs
  induction inputs with
  | nil => intro s _ _; rfl
  | cons i rest ih =>
    intro s hFail hlt
    obtain ⟨read, now⟩ := i
    cases read with
    | ok p =>
      have := hFail ⟨.ok p, now⟩ (List.mem_cons_self _ _)
      simp [isErr] at this
    | error e =>
      have hlen : s.error_count + (rest.length + 1) < r := by
        simpa [Nat.add_comm, Nat.add_assoc, Nat.add_left_comm] using hlt
      rw [runTicks_cons, tickStep_err_lt r s e now (by omega)]
      rw [ih _ (fun j hj => hFail j (List.mem_cons_of_mem _ hj)) (by simp; omega)]
      simp [Nat.add_comm, Nat.add_assoc, Nat.add_left_comm]

/-! ## Claims C1, C2, C3: the failure state machine -/

/-- Claim C1: in the worker's polling state machine, when a failed read
makes the consecutive-failure counter reach the configured retry
threshold, the Position Cache is overwritten with the fault value, and the
cache remains a fault value across every subsequent step until the next
successful read (i.e. across any further sequence of failing ticks). -/
theorem C1_fault_at_threshold_sticky_until_success
    (retries : ℕ) (s : WorkerState) (e : String) (now : ℚ)
    (hreach : s.error_count + 1 = retries)
    (inputs : List TickInput)
    (hFail : ∀ i ∈ inputs, isErr i.read = true) :
    (tickStep retries s ⟨.error e, now⟩).cache = .error e ∧
      isErr (runTicks retries (tickStep retries s ⟨.error e, now⟩) inputs).cache = true := by
  have hstep : tickStep retries s ⟨.error e, now⟩ =
      { error_count := s.error_count + 1, cache := .error e } :=
    tickStep_err_ge retries s e now (by omega)
  refine ⟨by rw [hstep], ?_⟩
  exact runTicks_err_cache_isErr retries inputs hFail _ (by rw [hstep]; rfl)

theorem C1_witness :
    ((0 : ℕ) + 1 = 1 ∧
      (∀ i ∈ [TickInput.mk (.error "x") 1, TickInput.mk (.error "y") 2],
        isErr i.read = true)) ∧
    ((tickStep 1 ⟨0, .ok fbp0⟩ ⟨.error "boom", 0⟩).cache = .error "boom" ∧
      isErr (runTicks 1 (tickStep 1 ⟨0, .ok fbp0⟩ ⟨.error "boom", 0⟩)
        [TickInput.mk (.error "x") 1, TickInput.mk (.error "y") 2]).cache = true) :=
  ⟨⟨rfl, by decide⟩,
    C1_fault_at_threshold_sticky_until_success 1 ⟨0, .ok fbp0⟩ "boom" 0 rfl
      [TickInput.mk (.error "x") 1, TickInput.mk (.error "y") 2] (by decide)⟩

/-- Claim C2: for every sequence of consecutive failed reads of length
`n`, starting from a state whose consecutive-failure counter is 0, if
`n < retry_threshold` then the Position Cache after the sequence equals
the cache value before the sequence began. -/
theorem C2_cache_untouched_below_threshold
    (retries : ℕ) (s : WorkerState) (h0 : s.error_count = 0)
    (inputs : List TickInput)
    (hFail : ∀ i ∈ inputs, isErr i.read = true)
    (hn : inputs.length < retries) :
    (runTicks retries s inputs).cache = s.cache := by
  rw [runTicks_fail_below retries inputs s hFail (by omega)]

theorem C2_witness :
    ((⟨0, .ok fbp0⟩ : WorkerState).error_count = 0 ∧
      (∀ i ∈ [TickInput.mk (.error "x") 1, TickInput.mk (.error "y") 2],
        isErr i.read = true) ∧
      ([TickInput.mk (.error "x") 1, TickInput.mk (.error "y") 2].length < 3)) ∧
    (runTicks 3 ⟨0, .ok fbp0⟩
        [TickInput.mk (.error "x") 1, TickInput.mk (.error "y") 2]).cache
      = (⟨0, .ok fbp0⟩ : WorkerState).cache :=
  ⟨⟨rfl, by decide, by decide⟩,
    C2_cache_untouched_below_threshold 3 ⟨0, .ok fbp0⟩ rfl
      [TickInput.mk (.error "x") 1, TickInput.mk (.error "y") 2] (by decide) (by decide)⟩

/-- Claim C3: on every successful read tick, from any state, the
consecutive-failure counter is reset to 0 and the Position Cache is
overwritten with the freshly-stamped snapshot; in particular a fault in
the cache is not sticky — one successful read restores a good snapshot. -/
theorem C3_success_resets_counter_and_cache
    (retries : ℕ) (s : WorkerState) (p : FullBodyPosition) (now : ℚ) :
    tickStep retries s ⟨.ok p, now⟩ =
      { error_count := 0,
        cache := .ok { body_yaw := p.body_yaw, stewart := p.stewart,
                       antennas := p.antennas, timestamp := now } } := rfl

/-! ## Lemmas about `read_pos_with_retries` -/

theorem readPosRetryAux_error_iff (reads : ℕ → Except String FullBodyPosition)
    (retries : ℕ) :
    ∀ (fuel i : ℕ),
      isErr (readPosRetryAux reads retries i fuel) = true ↔
        ∀ j, j < fuel → isErr (reads (i + j)) = true := by
  intro fuel
  induction fuel with
  | zero =>
    intro i
    constructor
    · intro _ j hj; omega
    · intro _; rfl
  | succ n ih =>
    intro i
    simp only [readPosRetryAux]
    cases hr : reads i with
    | ok p =>
      constructor
      · intro h; simp [isErr] at h
      · intro h
        have h0 := h 0 (Nat.succ_pos n)
        rw [Nat.add_zero, hr] at h0
        simp [isErr] at h0
    | error e =>
      rw [ih (i + 1)]
      constructor
      · intro h j hj
        cases j with
        | zero => rw [Nat.add_zero, hr]; rfl
        | succ k =>
          have hk := h k (Nat.lt_of_succ_lt_succ hj)
          rwa [show i + 1 + k = i + (k + 1) from by omega] at hk
      · intro h j hj
        have hk := h (j + 1) (Nat.succ_lt_succ hj)
        rwa [show i + (j + 1) = i + 1 + j from by omega] at hk

theorem readPosRetryAux_first_ok (reads : ℕ → Except String FullBodyPosition)
    (retries : ℕ) :
    ∀ (fuel i k : ℕ), k < fuel → isOkE (reads (i + k)) = true →
      (∀ j, j < k → isErr (reads (i + j)) = true) →
      readPosRetryAux reads retries i fuel = reads (i + k) := by
  intro fuel
  induction fuel with
  | zero => intro i k hk; omega
  | succ n ih =>
    intro i k hk hok hprev
    simp only [readPosRetryAux]
    cases hr : reads i with
    | ok p =>
      cases k with
      | zero => simp [hr]
      | succ m =>
        have h0 := hprev 0 (Nat.succ_pos m)
        rw [Nat.add_zero, hr] at h0
        simp [isErr] at h0
    | error e =>
      cases k with
      | zero =>
        rw [Nat.add_zero, hr] at hok
        simp [isOkE] at hok
      | succ m =>
        have hrec := ih (i + 1) m (Nat.lt_of_succ_lt_succ hk)
          (by rwa [show i + 1 + m = i + (m + 1) from by omega])
          (fun j hj => by
            have hj1 := hprev (j + 1) (Nat.succ_lt_succ hj)
            rwa [show i + (j + 1) = i + 1 + j from by omega] at hj1)
        rwa [show i + 1 + m = i + (m + 1) from by omega] at hrec

/-! ## Claims C9, C7: bounded initial read and construction -/

/-- Claim C9: `read_pos_with_retries` performs at most `retries` attempts
and returns the first successful snapshot; it returns an error exactly
when all of the first `retries` attempts fail; with `retries = 0` it
errors without a single read, so `ReachyMiniControlLoop::new` with
`read_allowed_retries = 0` always fails. -/
theorem C9_read_pos_with_retries_spec
    (reads : ℕ → Except String FullBodyPosition) (retries : ℕ) :
    (isErr (read_pos_with_retries reads retries) = true ↔
      ∀ i, i < retries → isErr (reads i) = true) ∧
    (∀ k, k < retries → isOkE (reads k) = true →
      (∀ j, j < k → isErr (reads j) = true) →
      read_pos_with_retries reads retries = reads k) ∧
    read_pos_with_retries reads 0 =
      .error "Failed to read positions after 0 retries" ∧
    isErr (ReachyMiniControlLoop.new reads 0) = true := by
  refine ⟨?_, ?_, rfl, rfl⟩
  · rw [read_pos_with_retries, readPosRetryAux_error_iff reads retries retries 0]
    constructor
    · intro h i hi; simpa using h i hi
    · intro h j hj; simpa using h j hj
  · intro k hk hok hprev
    have h := readPosRetryAux_first_ok reads retries retries 0 k hk
      (by simpa using hok) (fun j hj => by simpa using hprev j hj)
    simpa [read_pos_with_retries] using h

theorem C9_witness :
    ((1 : ℕ) < 3 ∧ isOkE (readsW 1) = true ∧
      (∀ j, j < 1 → isErr (readsW j) = true)) ∧
    read_pos_with_retries readsW 3 = readsW 1 :=
  ⟨⟨by decide, by decide, by decide⟩,
    (C9_read_pos_with_retries_spec readsW 3).2.1 1 (by decide) (by decide) (by decide)⟩

/-- Claim C7: construction performs a blocking initial read bounded by the
configured retry count; if every attempt within the bound fails,
`ReachyMiniControlLoop::new` errors and produces no handle; if some
attempt succeeds, the handle's Position Cache is seeded with that first
successful snapshot, hence never empty or faulted right after successful
construction. -/
theorem C7_construction_seeds_cache
    (reads : ℕ → Except String FullBodyPosition) (retries : ℕ) :
    ((∀ i, i < retries → isErr (reads i) = true) →
      isErr (ReachyMiniControlLoop.new reads retries) = true) ∧
    (∀ h : Handle, ReachyMiniControlLoop.new reads retries = .ok h →
      get_last_position h = read_pos_with_retries reads retries ∧
      isOkE (get_last_position h) = true) := by
  constructor
  · intro hall
    have herr : isErr (read_pos_with_retries reads retries) = true := by
      rw [read_pos_with_retries, readPosRetryAux_error_iff reads retries retries 0]
      intro j hj
      simpa using hall j hj
    cases hres : read_pos_with_retries reads retries with
    | ok p => rw [hres] at herr; simp [isErr] at herr
    | error e => simp [ReachyMiniControlLoop.new, hres, isErr]
  · intro h hnew
    unfold ReachyMiniControlLoop.new at hnew
    cases hres : read_pos_with_retries reads retries with
    | error e => rw [hres] at hnew; simp at hnew
    | ok p =>
      rw [hres] at hnew
      simp only [Except.ok.injEq] at hnew
      subst hnew
      exact ⟨rfl, rfl⟩

theorem C7_witness :
    ReachyMiniControlLoop.new readsW 3 = .ok ⟨.ok fbp0⟩ ∧
    (get_last_position ⟨.ok fbp0⟩ = read_pos_with_retries readsW 3 ∧
      isOkE (get_last_position ⟨.ok fbp0⟩) = true) :=
  ⟨by decide, (C7_construction_seeds_cache readsW 3).2 ⟨.ok fbp0⟩ (by decide)⟩

/-! ## Lemmas about the worker event loop -/

theorem runLoop_cons (o : Oracle) (r : ℕ) (s : LoopState) (e : Event)
    (es : List Event) :
    runLoop o r s (e :: es) = runLoop o r (loopStep o r s e) es := rfl

theorem runLoop_append (o : Oracle) (r : ℕ) (s : LoopState)
    (l1 l2 : List Event) :
    runLoop o r s (l1 ++ l2) = runLoop o r (runLoop o r s l1) l2 := by
  simp [runLoop, List.foldl_append]

theorem runLoop_pushes (o : Oracle) (r : ℕ) (cmds : List MotorCommand) :
    ∀ s : LoopState, s.dead = false →
      runLoop o r s (cmds.map .push) = { s with queue := s.queue ++ cmds } := by
  induction cmds with
  | nil => intro s _; simp [runLoop]
  | cons c rest ih =>
    intro s hd
    obtain ⟨q, a, d, w⟩ := s
    simp only at hd
    subst hd
    rw [List.map_cons, runLoop_cons]
    have hstep : loopStep o r ⟨q, a, false, w⟩ (.push c) = ⟨q ++ [c], a, false, w⟩ := by
      simp [loopStep]
    rw [hstep, ih ⟨q ++ [c], a, false, w⟩ rfl]
    simp

theorem runLoop_drain (o : Oracle) (r : ℕ) :
    ∀ (pending : List MotorCommand) (s : LoopState), s.dead = false →
      s.queue = pending →
      (∀ c ∈ pending, isErr (handle_commands o c).1 = false) →
      runLoop o r s (List.replicate pending.length .recv) =
        { s with queue := [], applied := s.applied ++ pending } := by
  intro pending
  induction pending with
  | nil =>
    intro s _ hq _
    obtain ⟨q, a, d, w⟩ := s
    simp only at hq
    subst hq
    simp [runLoop]
  | cons c rest ih =>
    intro s hd hq hok
    obtain ⟨q, a, d, w⟩ := s
    simp only at hd hq
    subst hd hq
    rw [List.length_cons, List.replicate_succ, runLoop_cons]
    have hstep : loopStep o r ⟨c :: rest, a, false, w⟩ .recv =
        ⟨rest, a ++ [c], false, w⟩ := by
      simp [loopStep, hok c (List.mem_cons_self _ _)]
    rw [hstep,
      ih ⟨rest, a ++ [c], false, w⟩ rfl rfl
        (fun x hx => hok x (List.mem_cons_of_mem _ hx))]
    simp

/-! ## Claims C5, C4: command dispatch -/

/-- Claim C5: for every sequence of commands pushed into the channel
before the worker drains them, the worker hands them to `handle_commands`
(and hence to the transport) in the same FIFO order, each exactly once,
with no reordering or coalescing; the queue is left empty and the polling
state is untouched. (As in the source, a command whose application fails
kills the worker, so the claim is stated for command handling that
succeeds.) -/
theorem C5_commands_fifo_exactly_once
    (oracle : Oracle) (retries : ℕ) (cmds : List MotorCommand) (s : LoopState)
    (hq : s.queue = []) (hd : s.dead = false)
    (hok : ∀ c ∈ cmds, isErr (handle_commands oracle c).1 = false) :
    runLoop oracle retries s (cmds.map .push ++ List.replicate cmds.length .recv) =
      { s with queue := [], applied := s.applied ++ cmds } := by
  obtain ⟨q, a, d, w⟩ := s
  simp only at hq hd
  subst hq hd
  rw [runLoop_append, runLoop_pushes oracle retries cmds _ rfl]
  simp only [List.nil_append]
  exact runLoop_drain oracle retries cmds ⟨cmds, a, false, w⟩ rfl rfl hok

theorem C5_witness :
    ((s0loop.queue = []) ∧ (s0loop.dead = false) ∧
      (∀ c ∈ [MotorCommand.enableTorque, MotorCommand.setBodyRotation 10,
              MotorCommand.disableTorque],
        isErr (handle_commands oracleOk c).1 = false)) ∧
    runLoop oracleOk 3 s0loop
        ([MotorCommand.enableTorque, MotorCommand.setBodyRotation 10,
          MotorCommand.disableTorque].map .push ++
          List.replicate 3 .recv) =
      { s0loop with
        queue := [],
        applied := [MotorCommand.enableTorque, MotorCommand.setBodyRotation 10,
                    MotorCommand.disableTorque] } :=
  ⟨⟨rfl, rfl, by decide⟩,
    C5_commands_fifo_exactly_once oracleOk 3
      [MotorCommand.enableTorque, MotorCommand.setBodyRotation 10,
        MotorCommand.disableTorque] s0loop rfl rfl (by decide)⟩

/-- Claim C4 is refuted by the code: `run` calls
`handle_commands(&mut c, command).unwrap()`, so a command whose
application returns `Err` — here an in-range `SetBodyRotation` whose bus
write fails with a transport error — panics the worker thread instead of
being logged and dropped; afterwards the loop is gone, so a later
successful read tick no longer updates the Position Cache and later
commands are never applied. -/
theorem C4_write_failure_panics_worker :
    isErr (handle_commands oracleFail (.setBodyRotation 10)).1 = true ∧
    (handle_commands oracleFail (.setBodyRotation 10)).1 =
      .error (.transportError "io error") ∧
    afterBadWrite.dead = true ∧
    runLoop oracleFail 3 afterBadWrite
        [.tick ⟨.ok fbp0, 5⟩, .push .enableTorque, .recv] = afterBadWrite := by
  decide

/-! ## Lemmas about `validate_positions` -/

theorem validateFrom_ok_iff :
    ∀ (ps : List ℚ) (i : ℕ),
      validateFrom i ps = .ok () ↔
        ∀ p ∈ ps, POSITION_MIN ≤ p ∧ p ≤ POSITION_MAX := by
  intro ps
  induction ps with
  | nil => intro i; simp [validateFrom]
  | cons p rest ih =>
    intro i
    simp only [validateFrom]
    by_cases h : p < POSITION_MIN ∨ p > POSITION_MAX
    · rw [if_pos h]
      constructor
      · intro hc; exact absurd hc (by simp)
      · intro hall
        rcases hall p (List.mem_cons_self _ _) with ⟨h1, h2⟩
        rcases h with hb | hb
        · exact absurd hb (not_lt.mpr h1)
        · exact absurd hb (not_lt.mpr h2)
    · rw [if_neg h, ih (i + 1)]
      push_neg at h
      constructor
      · intro hall x hx
        rcases List.mem_cons.mp hx with rfl | hx
        · exact h
        · exact hall x hx
      · intro hall x hx
        exact hall x (List.mem_cons_of_mem _ hx)

theorem validateFrom_error_validation :
    ∀ (ps : List ℚ) (i : ℕ) (e : CtrlError),
      validateFrom i ps = .error e → e.isValidation = true := by
  intro ps
  induction ps with
  | nil => intro i e h; simp [validateFrom] at h
  | cons p rest ih =>
    intro i e h
    simp only [validateFrom] at h
    split at h
    · cases h; rfl
    · exact ih (i + 1) e h

theorem validated_gate (ps : List ℚ)
    (k result : Except CtrlError Unit × List WriteOp)
    (hres : result = match validate_positions ps with
                     | .error e => (.error e, [])
                     | .ok _ => k) :
    ((∃ v ∈ ps, v < POSITION_MIN ∨ v > POSITION_MAX) →
      (∃ e, result.1 = .error e ∧ e.isValidation = true) ∧ result.2 = []) ∧
    (result.2 ≠ [] → ∀ v ∈ ps, POSITION_MIN ≤ v ∧ v ≤ POSITION_MAX) := by
  cases hv : validate_positions ps with
  | error e =>
    rw [hv] at hres
    subst hres
    refine ⟨fun _ => ⟨⟨e, rfl, validateFrom_error_validation ps 0 e hv⟩, rfl⟩, ?_⟩
    intro hne
    exact absurd rfl hne
  | ok u =>
    cases u
    rw [hv] at hres
    subst hres
    have hall := (validateFrom_ok_iff ps 0).mp hv
    refine ⟨?_, fun _ => hall⟩
    rintro ⟨v, hvmem, hbad⟩
    rcases hall v hvmem with ⟨h1, h2⟩
    rcases hbad with hb | hb
    · exact absurd hb (not_lt.mpr h1)
    · exact absurd hb (not_lt.mpr h2)

/-! ## Claim C6: range validation gates all goal-position writes -/

/-- Claim C6: for each goal-position operation (`set_all_goal_positions`,
`set_stewart_platform_position`, `set_antennas_positions`,
`set_body_rotation`), if any supplied value lies outside
`[POSITION_MIN, POSITION_MAX]` the operation returns the validation error
and no bus write is attempted; conversely a bus write is attempted only
when every supplied value is in range. -/
theorem C6_validation_gates_goal_position_writes (oracle : Oracle)
    (p9 p6 p2 : List ℚ) (p1 : ℚ) :
    (((∃ v ∈ p9, v < POSITION_MIN ∨ v > POSITION_MAX) →
        (∃ e, (set_all_goal_positions oracle p9).1 = .error e ∧
          e.isValidation = true) ∧
        (set_all_goal_positions oracle p9).2 = []) ∧
      ((set_all_goal_positions oracle p9).2 ≠ [] →
        ∀ v ∈ p9, POSITION_MIN ≤ v ∧ v ≤ POSITION_MAX)) ∧
    (((∃ v ∈ p6, v < POSITION_MIN ∨ v > POSITION_MAX) →
        (∃ e, (set_stewart_platform_position oracle p6).1 = .error e ∧
          e.isValidation = true) ∧
        (set_stewart_platform_position oracle p6).2 = []) ∧
      ((set_stewart_platform_position oracle p6).2 ≠ [] →
        ∀ v ∈ p6, POSITION_MIN ≤ v ∧ v ≤ POSITION_MAX)) ∧
    (((∃ v ∈ p2, v < POSITION_MIN ∨ v > POSITION_MAX) →
        (∃ e, (set_antennas_positions oracle p2).1 = .error e ∧
          e.isValidation = true) ∧
        (set_antennas_positions oracle p2).2 = []) ∧
      ((set_antennas_positions oracle p2).2 ≠ [] →
        ∀ v ∈ p2, POSITION_MIN ≤ v ∧ v ≤ POSITION_MAX)) ∧
    (((p1 < POSITION_MIN ∨ p1 > POSITION_MAX) →
        (∃ e, (set_body_rotation oracle p1).1 = .error e ∧
          e.isValidation = true) ∧
        (set_body_rotation oracle p1).2 = []) ∧
      ((set_body_rotation oracle p1).2 ≠ [] →
        POSITION_MIN ≤ p1 ∧ p1 ≤ POSITION_MAX)) := by
  refine ⟨?_, ?_, ?_, ?_⟩
  · exact validated_gate p9 _ (set_all_goal_positions oracle p9) rfl
  · exact validated_gate p6 _ (set_stewart_platform_position oracle p6) rfl
  · exact validated_gate p2 _ (set_antennas_positions oracle p2) rfl
  · have h := validated_gate [p1] _ (set_body_rotation oracle p1) rfl
    refine ⟨fun hbad => h.1 ⟨p1, List.mem_cons_self _ _, hbad⟩, ?_⟩
    intro hne
    exact h.2 hne p1 (List.mem_cons_self _ _)

theorem C6_witness :
    (∃ v ∈ [(181 : ℚ), 0, 0, 0, 0, 0, 0, 0, 0],
      v < POSITION_MIN ∨ v > POSITION_MAX) ∧
    ((∃ e, (set_all_goal_positions oracleOk [181, 0, 0, 0, 0, 0, 0, 0, 0]).1
        = .error e ∧ e.isValidation = true) ∧
      (set_all_goal_positions oracleOk [181, 0, 0, 0, 0, 0, 0, 0, 0]).2 = []) :=
  ⟨by decide,
    (C6_validation_gates_goal_position_writes oracleOk
      [181, 0, 0, 0, 0, 0, 0, 0, 0] [0, 0, 0, 0, 0, 0] [0, 0] 0).1.1 (by decide)⟩

/-! ## Claim C10: wire layout round-trip -/

/-- Claim C10: for every 9-value vector in the transport order
`[body_rotation, antenna_left, antenna_right, stewart_1..6]`, building a
`FullBodyPosition` from it as `read_pos` does and flattening it as
`handle_commands` does for `SetAllGoalPositions` (`sagpVector`) yields the
original vector, element for element. -/
theorem C10_wire_layout_roundtrip (p0 p1 p2 p3 p4 p5 p6 p7 p8 now : ℚ) :
    ∃ fbp : FullBodyPosition,
      read_pos (.ok [p0, p1, p2, p3, p4, p5, p6, p7, p8]) now = .ok fbp ∧
      sagpVector fbp = [p0, p1, p2, p3, p4, p5, p6, p7, p8] :=
  ⟨_, rfl, rfl⟩

/-! ## Claim C8: the stats window (corrected) -/

/-- Claim C8 as stated is false on the code: the flush `extend`s the
visible `ControlLoopStats` window and never clears it. After two flushing
ticks with read-duration samples 1 and 2, `get_stats` shows
`read_dt = [1, 2]` — still containing the sample flushed before the last
flush boundary — not the `[2]` that "reset to empty immediately after
each flush" would give. -/
theorem C8_counterexample :
    (get_stats (statsTick (statsTick statsS0 0 1 true) 0 2 true)).read_dt = [1, 2] ∧
    (get_stats (statsTick (statsTick statsS0 0 1 true) 0 2 true)).read_dt ≠ [2] := by
  decide

/-- Claim C8 amended: each tick appends the inter-tick spacing directly to
the visible window's `period` list and the read duration to a local
buffer; when the flush period has elapsed, the local `read_dt` /
`write_dt` buffers are appended onto the visible window and the local
buffers are cleared — the visible window itself is never reset, so
`get_stats` sees every sample flushed since construction, not only those
since the last flush boundary. -/
theorem C8_flush_appends_and_clears (s : StatsState) (p r : ℚ)
    (flushDue : Bool) :
    (get_stats (statsTick s p r flushDue)).period = (get_stats s).period ++ [p] ∧
    (flushDue = true →
      (get_stats (statsTick s p r true)).read_dt
          = (get_stats s).read_dt ++ (s.local_read ++ [r]) ∧
      (get_stats (statsTick s p r true)).write_dt
          = (get_stats s).write_dt ++ s.local_write ∧
      (statsTick s p r true).local_read = [] ∧
      (statsTick s p r true).local_write = []) ∧
    (flushDue = false →
      (get_stats (statsTick s p r false)).read_dt = (get_stats s).read_dt ∧
      (get_stats (statsTick s p r false)).write_dt = (get_stats s).write_dt ∧
      (statsTick s p r false).local_read = s.local_read ++ [r] ∧
      (statsTick s p r false).local_write = s.local_write) := by
  refine ⟨?_, fun _ => ?_, fun _ => ?_⟩
  · cases flushDue <;> simp [statsTick, get_stats]
  · refine ⟨?_, ?_, ?_, ?_⟩ <;> simp [statsTick, get_stats]
  · refine ⟨?_, ?_, ?_, ?_⟩ <;> simp [statsTick, get_stats]

theorem C8_witness :
    (true = true) ∧
    ((get_stats (statsTick statsS0 0 1 true)).read_dt
        = (get_stats statsS0).read_dt ++ (statsS0.local_read ++ [1]) ∧
      (get_stats (statsTick statsS0 0 1 true)).write_dt
        = (get_stats statsS0).write_dt ++ statsS0.local_write ∧
      (statsTick statsS0 0 1 true).local_read = [] ∧
      (statsTick statsS0 0 1 true).local_write = []) :=
  ⟨rfl, (C8_flush_appends_and_clears statsS0 0 1 true).2.1 rfl⟩

end ReachyMini
